import Mathlib

/-!
Verification of the egos-2001 grass kernel core (src/grass/kernel.c,
src/grass/process.c, src/grass/process.h): a shallow embedding of the
process table, the status-transition helpers, the MLFQ policy, the
scheduler selection in `proc_yield`, and the send/recv IPC engine.

Modelling conventions:
* C machine integers `unsigned long long` (times) become `Nat`; pids
  (C `int`) become `Int`; subtraction of times only ever happens under a
  monotone-clock hypothesis `last ≤ now`, where Nat truncated subtraction
  agrees with the C unsigned subtraction.
* The global `proc_set` array of `MAX_NPROCESS + 1` entries becomes a
  `List Process` of length 17; `proc_set[0]` is the idle placeholder.
* `mtime_get()` becomes an explicit `now : Nat` argument; the static
  variables (`curr_pid` in `proc_alloc`, `MLFQ_last_reset_time` in
  `mlfq_reset_level`) and the globals (`core_to_proc_idx` entry for the
  core in the kernel) become explicit arguments and results.
* `FATAL` becomes `Option.none`; functions that cannot hit `FATAL`
  return the table directly.
* Hardware and external-memory effects (`mmu_*`, `timer_reset`, the
  `mstatus` CSR writes, `wfi`, the user-space copies through
  `mmu_translate`, printing) have no observable effect on the kernel
  data structures modelled here and are omitted; the register spill
  area and `saved_registers` are likewise outside the model (only
  `mepc` is kept, since the ECALL path and dispatch modify it).
-/

namespace Egos

/-- Process status, from process.h `enum proc_status`. -/
inductive ProcStatus
  | UNUSED
  | LOADING
  | READY
  | RUNNING
  | RUNNABLE
  | PENDING_SYSCALL
deriving DecidableEq, Repr

/-- Syscall completion status. Modelled from the spec (syscall.h is not
among the sources): `status ∈ {PENDING, DONE}`. -/
inductive SyscallStatus
  | PENDING
  | DONE
deriving DecidableEq, Repr

/-- Syscall type. Modelled from the spec (syscall.h is not among the
sources): `type ∈ {SYS_SEND, SYS_RECV}`. -/
inductive SyscallType
  | SYS_SEND
  | SYS_RECV
deriving DecidableEq, Repr

/-- The system-call record embedded in each PCB. Modelled from the spec
(syscall.h is not among the sources): type, peer pids, inline payload of
fixed length `SYSCALL_MSG_LEN` (represented as the whole buffer, a list
of bytes), completion status. -/
structure Syscall where
  type : SyscallType
  sender : Int
  receiver : Int
  status : SyscallStatus
  content : List Nat
deriving DecidableEq, Repr

/-- Process control block, from `struct process` in process.h.
`saved_registers` is external trap-frame state and is not modelled. -/
structure Process where
  pid : Int
  syscall : Syscall
  status : ProcStatus
  mepc : Nat
  creation_time : Nat
  first_schedule_time : Nat
  total_cpu_time : Nat
  termination_time : Nat
  timer_interrupt_count : Nat
  queue_level : Nat
  queue_time : Nat
  last_schedule_time : Nat
  wakeup_time : Nat
deriving DecidableEq, Repr

/-- The process table `proc_set`; in the kernel it has
`MAX_NPROCESS + 1` slots, slot 0 being the idle placeholder. -/
abbrev ProcTable := List Process

/-- `MAX_NPROCESS` from process.h. -/
def MAX_NPROCESS : Nat := 16

/-- `MLFQ_LEVELS` from process.h (used by kernel.c). -/
def MLFQ_LEVELS : Nat := 5

/-- `MLFQ_NLEVELS` from process.c. -/
def MLFQ_NLEVELS : Nat := 5

/-- `MLFQ_RESET_PERIOD` from process.c: 10 seconds in microseconds. -/
def MLFQ_RESET_PERIOD : Nat := 10000000

/-- `MLFQ_LEVEL_RUNTIME(x)` from process.c: the level-`x` quantum. -/
def MLFQ_LEVEL_RUNTIME (x : Nat) : Nat := (x + 1) * 100000

/-- Modelled from the spec: `GPID_ALL` is the wildcard pid, never an
actual pid (egos.h is not among the sources). -/
def GPID_ALL : Int := 0

/-- Modelled from the spec: `GPID_SHELL` is the pid of the shell, the
interactive-boost target (egos.h is not among the sources; the concrete
value is irrelevant to the claims settled here). -/
def GPID_SHELL : Int := 5

/-- Modelled from the spec: `GPID_USER_START` is the smallest pid
treated as a user process (egos.h is not among the sources). -/
def GPID_USER_START : Int := 6

/-- Modelled from the spec: `APPS_ENTRY` is the fixed entry address a
newly dispatched READY process starts at (egos.h is not among the
sources; the concrete value is irrelevant to the claims settled here). -/
def APPS_ENTRY : Nat := 134516736

/-! ### Generic loop combinators

Every loop in process.c and kernel.c scans a contiguous index range of
`proc_set`.  `find_first` mirrors a `for` loop from `start` running for
`fuel` iterations that stops at the first slot satisfying `cond`;
`upd_first` additionally applies an update to that slot (the shape of
all the `proc_set_*` helpers, `proc_sleep`, and the shell boost);
`update_range` mirrors a loop that conditionally updates every slot in
the range without breaking (`proc_set_status`, the periodic MLFQ reset,
and `proc_free(GPID_ALL)`). -/

/-- First index `i` in `[start, start+fuel)` with `cond (t.get i)`,
together with the slot's value. -/
def find_first (cond : Process → Bool) (t : ProcTable) : Nat → Nat → Option (Nat × Process)
  | _, 0 => none
  | i, fuel + 1 =>
    match t.get? i with
    | none => none
    | some p => if cond p then some (i, p) else find_first cond t (i + 1) fuel

/-- Update the first slot in `[start, start+fuel)` satisfying `cond`
with `f`; leave the table unchanged when no slot matches. -/
def upd_first (cond : Process → Bool) (f : Process → Process) (t : ProcTable)
    (start fuel : Nat) : ProcTable :=
  match find_first cond t start fuel with
  | none => t
  | some (i, p) => t.set i (f p)

/-- Apply `f` to every slot in `[start, start+fuel)`. -/
def update_range (f : Process → Process) (t : ProcTable) : Nat → Nat → ProcTable
  | _, 0 => t
  | i, fuel + 1 =>
    match t.get? i with
    | none => t
    | some p => update_range f (t.set i (f p)) (i + 1) fuel

/-! ### process.c -/

/-- `proc_set_status` (process.c): set the status of every slot in
`0..MAX_NPROCESS-1` whose pid matches (no early return in the source). -/
def proc_set_status (pid : Int) (status : ProcStatus) (t : ProcTable) : ProcTable :=
  update_range (fun p => if p.pid = pid then { p with status := status } else p) t 0 MAX_NPROCESS

/-- `proc_set_ready` (process.c): first slot in `0..MAX_NPROCESS-1`
whose pid matches gets status READY. -/
def proc_set_ready (pid : Int) (t : ProcTable) : ProcTable :=
  upd_first (fun p => decide (p.pid = pid))
    (fun p => { p with status := .READY }) t 0 MAX_NPROCESS

/-- `proc_set_running` (process.c): first pid match gets
`first_schedule_time` stamped if still zero, `last_schedule_time`
updated, status RUNNING.  The two `mtime_get()` calls of the source are
both the kernel-entry instant `now`. -/
def proc_set_running (pid : Int) (now : Nat) (t : ProcTable) : ProcTable :=
  upd_first (fun p => decide (p.pid = pid))
    (fun p =>
      { p with
        first_schedule_time := if p.first_schedule_time = 0 then now else p.first_schedule_time,
        last_schedule_time := now,
        status := .RUNNING }) t 0 MAX_NPROCESS

/-- `mlfq_update_level` (process.c): return unchanged at the bottom
level; otherwise accumulate `runtime` into `queue_time` and demote when
the level quantum is exhausted.  (The `p == NULL` guard of the source
has no counterpart: the embedding has no null pointers.) -/
def mlfq_update_level (p : Process) (runtime : Nat) : Process :=
  if MLFQ_NLEVELS - 1 ≤ p.queue_level then p
  else
    let qt := p.queue_time + runtime
    if MLFQ_LEVEL_RUNTIME p.queue_level ≤ qt then
      { p with queue_level := p.queue_level + 1, queue_time := 0 }
    else { p with queue_time := qt }

/-- The accounting step shared textually by `proc_set_runnable` and
`proc_set_pending` (process.c): when the slot is RUNNING with a nonzero
`last_schedule_time`, add `now - last_schedule_time` to
`total_cpu_time` and forward the same interval to `mlfq_update_level`. -/
def charge_running (now : Nat) (p : Process) : Process :=
  if p.status = .RUNNING ∧ 0 < p.last_schedule_time then
    let runtime := now - p.last_schedule_time
    mlfq_update_level { p with total_cpu_time := p.total_cpu_time + runtime } runtime
  else p

/-- `proc_set_runnable` (process.c): first pid match in
`0..MAX_NPROCESS-1` is charged (when RUNNING) and set RUNNABLE. -/
def proc_set_runnable (pid : Int) (now : Nat) (t : ProcTable) : ProcTable :=
  upd_first (fun p => decide (p.pid = pid))
    (fun p => { charge_running now p with status := .RUNNABLE }) t 0 MAX_NPROCESS

/-- `proc_set_pending` (process.c): first pid match in
`0..MAX_NPROCESS-1` is charged (when RUNNING) and set PENDING_SYSCALL. -/
def proc_set_pending (pid : Int) (now : Nat) (t : ProcTable) : ProcTable :=
  upd_first (fun p => decide (p.pid = pid))
    (fun p => { charge_running now p with status := .PENDING_SYSCALL }) t 0 MAX_NPROCESS

/-- `proc_alloc` (process.c): first UNUSED slot in `1..MAX_NPROCESS`
gets the next pid, status LOADING, and zeroed accounting and scheduling
fields; `none` models the `FATAL` when the table is full.  The static
counter `curr_pid` is threaded as an argument; the returned pid is
`curr_pid + 1`.  (The slot's stale `syscall` and `mepc` are left as-is,
as in the source.) -/
def proc_alloc (curr_pid : Int) (now : Nat) (t : ProcTable) : Option (Int × ProcTable) :=
  match find_first (fun p => decide (p.status = .UNUSED)) t 1 MAX_NPROCESS with
  | none => none
  | some (i, p) =>
    some (curr_pid + 1,
      t.set i
        { p with
          pid := curr_pid + 1,
          status := .LOADING,
          creation_time := now,
          first_schedule_time := 0,
          total_cpu_time := 0,
          termination_time := 0,
          timer_interrupt_count := 0,
          queue_level := 0,
          queue_time := 0,
          last_schedule_time := 0,
          wakeup_time := 0 })

/-- `proc_free` (process.c).  For a single pid: the first non-UNUSED
pid match in `0..MAX_NPROCESS-1` gets `termination_time` stamped, the
lifecycle statistics are computed and printed (output only — no state
change), `mmu_free` is external, and `proc_set_status` marks every
matching slot UNUSED.  For `GPID_ALL`: every non-UNUSED user process in
`0..MAX_NPROCESS-1` gets `termination_time` stamped and status UNUSED. -/
def proc_free (pid : Int) (now : Nat) (t : ProcTable) : ProcTable :=
  if pid ≠ GPID_ALL then
    match find_first (fun p => decide (p.pid = pid ∧ p.status ≠ .UNUSED)) t 0 MAX_NPROCESS with
    | none => t
    | some (i, p) => proc_set_status pid .UNUSED (t.set i { p with termination_time := now })
  else
    update_range
      (fun p =>
        if GPID_USER_START ≤ p.pid ∧ p.status ≠ .UNUSED then
          { p with termination_time := now, status := .UNUSED }
        else p) t 0 MAX_NPROCESS

/-- `mlfq_reset_level` (process.c).  The static `MLFQ_last_reset_time`
is threaded in and out; `earth->tty_input_empty()` is the argument
`tty_input_empty`.  First the interactive boost: if TTY input is
pending, the first non-UNUSED `GPID_SHELL` slot in `0..MAX_NPROCESS-1`
goes to level 0.  Then the periodic reset: when at least
`MLFQ_RESET_PERIOD` has elapsed, every non-UNUSED slot in
`0..MAX_NPROCESS-1` goes to level 0 and the reset time is recorded. -/
def mlfq_reset_level (tty_input_empty : Bool) (now last_reset : Nat) (t : ProcTable) :
    ProcTable × Nat :=
  let t1 :=
    if !tty_input_empty then
      upd_first (fun p => decide (p.pid = GPID_SHELL ∧ p.status ≠ .UNUSED))
        (fun p => { p with queue_level := 0, queue_time := 0 }) t 0 MAX_NPROCESS
    else t
  if MLFQ_RESET_PERIOD ≤ now - last_reset then
    (update_range
      (fun p => if p.status ≠ .UNUSED then { p with queue_level := 0, queue_time := 0 } else p)
      t1 0 MAX_NPROCESS, now)
  else (t1, last_reset)

/-- `proc_sleep` (process.c): the first non-UNUSED pid match in
`0..MAX_NPROCESS-1` gets `wakeup_time := now + usec` and status
PENDING_SYSCALL. -/
def proc_sleep (pid : Int) (usec : Nat) (now : Nat) (t : ProcTable) : ProcTable :=
  upd_first (fun p => decide (p.pid = pid ∧ p.status ≠ .UNUSED))
    (fun p => { p with wakeup_time := now + usec, status := .PENDING_SYSCALL }) t 0 MAX_NPROCESS

/-! ### kernel.c: IPC -/

/-- `proc_try_send` (kernel.c).  The sender PCB is passed by value (the
source reads only `sender->pid`, `sender->syscall.receiver` and
`sender->syscall.content`, none of which the function writes).  Walk
`0..MAX_NPROCESS-1` for the first non-UNUSED slot whose pid is the
named receiver; leave everything unchanged unless that slot is in a
matching pending RECV, in which case its syscall record gets status
DONE, the actual sender pid, and the sender's payload.  `none` models
the `FATAL` on an unknown receiver. -/
def proc_try_send (sender : Process) (t : ProcTable) : Option ProcTable :=
  match find_first
      (fun dst => decide (dst.pid = sender.syscall.receiver ∧ dst.status ≠ .UNUSED))
      t 0 MAX_NPROCESS with
  | none => none
  | some (i, dst) =>
    if ¬(dst.syscall.type = .SYS_RECV ∧ dst.syscall.status = .PENDING) then some t
    else if ¬(dst.syscall.sender = GPID_ALL ∨ dst.syscall.sender = sender.pid) then some t
    else
      some (t.set i
        { dst with
          syscall :=
            { dst.syscall with
              status := .DONE,
              sender := sender.pid,
              content := sender.syscall.content } })

/-- `proc_try_recv` (kernel.c) for the receiver in slot `r`.  Nothing
happens while the receiver's syscall is still PENDING.  When DONE, the
completed record is copied back to user space (external memory, not
modelled) and both the receiver and the recorded sender are set
RUNNABLE; the second `proc_set_runnable` reads `syscall.sender` through
the receiver pointer, i.e. from the table updated by the first. -/
def proc_try_recv (now : Nat) (t : ProcTable) (r : Nat) : ProcTable :=
  match t.get? r with
  | none => t
  | some receiver =>
    if receiver.syscall.status = .PENDING then t
    else
      let t1 := proc_set_runnable receiver.pid now t
      match t1.get? r with
      | none => t1
      | some rec1 => proc_set_runnable rec1.syscall.sender now t1

/-- `proc_try_syscall` (kernel.c) for the process in slot `i`:
dispatch on the syscall type.  (The `default: FATAL` branch has no
counterpart: the modelled type covers exactly SYS_SEND and SYS_RECV,
the types the spec gives.) -/
def proc_try_syscall (now : Nat) (t : ProcTable) (i : Nat) : Option ProcTable :=
  match t.get? i with
  | none => some t
  | some p =>
    match p.syscall.type with
    | .SYS_RECV => some (proc_try_recv now t i)
    | .SYS_SEND => proc_try_send p t

/-! ### kernel.c: `proc_yield`

The selection state of the first scan: the (mutated) table, the running
minimum `min_level` (initialised to `MLFQ_LEVELS`), and `next_idx`
(initialised to `MAX_NPROCESS`, the source's none-found sentinel). -/

structure YieldScan where
  table : ProcTable
  min_level : Nat
  next_idx : Nat
deriving DecidableEq, Repr

/-- One slot's mutation at the top of the first `proc_yield` loop
(kernel.c): a PENDING_SYSCALL slot whose `wakeup_time` has arrived is
woken (wakeup cleared, status RUNNABLE). -/
def wake_step (now : Nat) (t : ProcTable) (i : Nat) : ProcTable :=
  match t.get? i with
  | none => t
  | some p =>
    if p.status = .PENDING_SYSCALL ∧ 0 < p.wakeup_time ∧ p.wakeup_time ≤ now then
      t.set i { p with wakeup_time := 0, status := .RUNNABLE }
    else t

/-- The `if (p->status == PROC_PENDING_SYSCALL) proc_try_syscall(p);`
step shared by both `proc_yield` loops (kernel.c). -/
def try_step (now : Nat) (t : ProcTable) (i : Nat) : Option ProcTable :=
  match t.get? i with
  | none => some t
  | some p => if p.status = .PENDING_SYSCALL then proc_try_syscall now t i else some t

/-- The first `proc_yield` loop (kernel.c): for each slot, wake it if
due, re-attempt its pending syscall, skip it while it sleeps, and track
the READY/RUNNABLE slot of strictly smallest `queue_level` (ties go to
the lowest index since the comparison is strict). -/
def yield_pass1 (now : Nat) : YieldScan → Nat → Nat → Option YieldScan
  | st, _, 0 => some st
  | st, i, fuel + 1 =>
    match try_step now (wake_step now st.table i) i with
    | none => none
    | some t2 =>
      match t2.get? i with
      | none => yield_pass1 now { st with table := t2 } (i + 1) fuel
      | some p2 =>
        if 0 < p2.wakeup_time ∧ now < p2.wakeup_time then
          yield_pass1 now { st with table := t2 } (i + 1) fuel
        else if (p2.status = .READY ∨ p2.status = .RUNNABLE) ∧ p2.queue_level < st.min_level then
          yield_pass1 now { table := t2, min_level := p2.queue_level, next_idx := i } (i + 1) fuel
        else yield_pass1 now { st with table := t2 } (i + 1) fuel

/-- The fallback `proc_yield` loop (kernel.c), run when the first scan
left `next_idx = MAX_NPROCESS`: re-attempt pending syscalls, skip
sleepers, and break at the first READY/RUNNABLE slot. -/
def yield_pass2 (now : Nat) : ProcTable → Nat → Nat → Option (ProcTable × Nat)
  | t, _, 0 => some (t, MAX_NPROCESS)
  | t, i, fuel + 1 =>
    match try_step now t i with
    | none => none
    | some t1 =>
      match t1.get? i with
      | none => yield_pass2 now t1 (i + 1) fuel
      | some p1 =>
        if 0 < p1.wakeup_time ∧ now < p1.wakeup_time then
          yield_pass2 now t1 (i + 1) fuel
        else if p1.status = .READY ∨ p1.status = .RUNNABLE then some (t1, i)
        else yield_pass2 now t1 (i + 1) fuel

/-- The dispatch tail of `proc_yield` (kernel.c) for the winning slot:
stamp `first_schedule_time` on first dispatch, update
`last_schedule_time`, set the privilege mode (hardware, not modelled),
make the slot current, switch the MMU (external), prime the program
counter of a READY (never yet dispatched) process, and mark it RUNNING
through `proc_set_running` (which locates the slot by pid). -/
def yield_dispatch (now : Nat) (t : ProcTable) (next_idx : Nat) : ProcTable × Nat :=
  match t.get? next_idx with
  | none => (t, next_idx)
  | some np =>
    let np1 :=
      if np.first_schedule_time = 0 then { np with first_schedule_time := now } else np
    let np2 := { np1 with last_schedule_time := now }
    let t1 := t.set next_idx np2
    let t2 :=
      match t1.get? next_idx with
      | none => t1
      | some q => if q.status = .READY then t1.set next_idx { q with mepc := APPS_ENTRY } else t1
    (proc_set_running np2.pid now t2, next_idx)

/-- The result of one `proc_yield`: the table, the new
`core_to_proc_idx` entry for the core in the kernel, whether the idle
branch (timer reset, `mstatus.MIE`, `wfi`) was taken, and the new MLFQ
last-reset timestamp. -/
structure YieldResult where
  table : ProcTable
  core_idx : Nat
  idled : Bool
  last_reset : Nat
deriving DecidableEq, Repr

/-- The `curr_status == PROC_RUNNING` entry step of `proc_yield`
(kernel.c): a RUNNING current process is demoted to RUNNABLE by pid. -/
def yield_entry (now : Nat) (cur_idx : Nat) (t : ProcTable) : ProcTable :=
  match t.get? cur_idx with
  | none => t
  | some c => if c.status = .RUNNING then proc_set_runnable c.pid now t else t

/-- `proc_yield` (kernel.c).  `cur_idx` is
`core_to_proc_idx[core_in_kernel]` on entry; `tty_input_empty`, `now`
and `last_reset` stand for the externals as in `mlfq_reset_level`.
Sequence: demote a RUNNING current process to RUNNABLE, run the MLFQ
reset, run the two selection scans, then dispatch the winner — or,
when `next_idx` did not end below `MAX_NPROCESS`, go idle with
`core_to_proc_idx[core] = 0`. -/
def proc_yield (now : Nat) (tty_input_empty : Bool) (last_reset : Nat) (cur_idx : Nat)
    (t : ProcTable) : Option YieldResult :=
  match yield_pass1 now
      ⟨(mlfq_reset_level tty_input_empty now last_reset (yield_entry now cur_idx t)).1,
        MLFQ_LEVELS, MAX_NPROCESS⟩ 1 MAX_NPROCESS with
  | none => none
  | some st =>
    match
      (if st.next_idx = MAX_NPROCESS then yield_pass2 now st.table 1 MAX_NPROCESS
       else some (st.table, st.next_idx)) with
    | none => none
    | some ts =>
      if ts.2 < MAX_NPROCESS then
        some ⟨(yield_dispatch now ts.1 ts.2).1, (yield_dispatch now ts.1 ts.2).2, false,
          (mlfq_reset_level tty_input_empty now last_reset (yield_entry now cur_idx t)).2⟩
      else
        some ⟨ts.1, 0, true,
          (mlfq_reset_level tty_input_empty now last_reset (yield_entry now cur_idx t)).2⟩

/-- The ECALL path of `excp_entry` (kernel.c) for the process in slot
`i`: its syscall record `sc` is copied from user space into the PCB
with status forced to PENDING, the caller is transitioned to
PENDING_SYSCALL by pid, `mepc` advances past the ECALL, and the syscall
is attempted once (`proc_yield` follows separately). -/
def post_syscall (now : Nat) (t : ProcTable) (i : Nat) (sc : Syscall) : Option ProcTable :=
  match t.get? i with
  | none => some t
  | some p =>
    let t1 := t.set i { p with syscall := { sc with status := .PENDING } }
    let t2 := proc_set_pending p.pid now t1
    let t3 :=
      match t2.get? i with
      | none => t2
      | some q => t2.set i { q with mepc := q.mepc + 4 }
    proc_try_syscall now t3 i

/-- The table mutation performed by one first scan of `proc_yield`
(wake-ups and syscall re-attempts over slots `1..MAX_NPROCESS`),
without the selection verdict. -/
def yield_sweep (now : Nat) (t : ProcTable) : Option ProcTable :=
  (yield_pass1 now ⟨t, MLFQ_LEVELS, MAX_NPROCESS⟩ 1 MAX_NPROCESS).map YieldScan.table

/-- The `wakeup_time` of slot `i`. -/
def wakeupAt (t : ProcTable) (i : Nat) : Option Nat :=
  (t.get? i).map Process.wakeup_time

/-! ### Loop lemmas -/

theorem get?_some_lt {t : ProcTable} {i : Nat} {p : Process} (h : t.get? i = some p) :
    i < t.length := by
  by_contra hc
  rw [List.get?_eq_none.mpr (by omega)] at h
  cases h

theorem find_first_some {cond : Process → Bool} {t : ProcTable} :
    ∀ {fuel start i : Nat} {p : Process},
      find_first cond t start fuel = some (i, p) →
      t.get? i = some p ∧ cond p = true ∧ start ≤ i := by
  intro fuel
  induction fuel with
  | zero => intro start i p h; cases h
  | succ n ih =>
    intro start i p h
    rw [find_first] at h
    cases hq : t.get? start with
    | none => rw [hq] at h; cases h
    | some q =>
      simp only [hq] at h
      by_cases hc : cond q = true
      · rw [if_pos hc] at h
        cases h
        exact ⟨hq, hc, le_refl _⟩
      · rw [if_neg hc] at h
        obtain ⟨h1, h2, h3⟩ := ih h
        exact ⟨h1, h2, by omega⟩

theorem find_first_pos {cond : Process → Bool} {t : ProcTable} :
    ∀ {fuel start i : Nat} {p : Process},
      start ≤ i → i < start + fuel → t.get? i = some p → cond p = true →
      (∀ j q, start ≤ j → j < i → t.get? j = some q → cond q = false) →
      find_first cond t start fuel = some (i, p) := by
  intro fuel
  induction fuel with
  | zero => intro start i p h1 h2; omega
  | succ n ih =>
    intro start i p h1 h2 hget hcond hprev
    rcases Nat.eq_or_lt_of_le h1 with heq | hlt
    · subst heq
      rw [find_first]
      simp only [hget, if_pos hcond]
    · have hs : start < t.length := lt_trans hlt (get?_some_lt hget)
      cases hq : t.get? start with
      | none => exact absurd (List.get?_eq_none.mp hq) (by omega)
      | some q =>
        have hcq := hprev start q (le_refl _) hlt hq
        rw [find_first]
        simp only [hq, hcq, Bool.false_eq_true, if_false]
        exact ih hlt (by omega) hget hcond fun j r hj1 hj2 hr => hprev j r (by omega) hj2 hr

theorem upd_first_eq_set {cond : Process → Bool} {f : Process → Process} {t : ProcTable}
    {start fuel i : Nat} {p : Process}
    (h1 : start ≤ i) (h2 : i < start + fuel) (hget : t.get? i = some p)
    (hcond : cond p = true)
    (hprev : ∀ j q, start ≤ j → j < i → t.get? j = some q → cond q = false) :
    upd_first cond f t start fuel = t.set i (f p) := by
  rw [upd_first, find_first_pos h1 h2 hget hcond hprev]

theorem upd_first_id {cond : Process → Bool} {f : Process → Process} {t : ProcTable}
    {start fuel : Nat}
    (h : ∀ j q, t.get? j = some q → cond q = false) :
    upd_first cond f t start fuel = t := by
  rw [upd_first]
  cases hf : find_first cond t start fuel with
  | none => rfl
  | some ip =>
    obtain ⟨h1, h2, _⟩ := find_first_some hf
    rw [h ip.1 ip.2 h1] at h2
    cases h2

theorem update_range_get? (f : Process → Process) :
    ∀ (fuel start : Nat) (t : ProcTable) (j : Nat),
      (update_range f t start fuel).get? j =
        if start ≤ j ∧ j < start + fuel ∧ j < t.length then (t.get? j).map f else t.get? j := by
  intro fuel
  induction fuel with
  | zero =>
    intro start t j
    rw [update_range, if_neg]
    omega
  | succ n ih =>
    intro start t j
    rw [update_range]
    cases hq : t.get? start with
    | none =>
      have hlen : t.length ≤ start := List.get?_eq_none.mp hq
      simp only [hq]
      split
      · next hc => exfalso; omega
      · rfl
    | some q =>
      have hlen : start < t.length := get?_some_lt hq
      simp only [hq]
      rw [ih]
      by_cases hj : j = start
      · subst hj
        rw [if_neg (by omega), if_pos (by omega)]
        rw [List.get?_set_eq_of_lt _ hlen, hq]
        rfl
      · rw [List.get?_set_ne _ _ (fun h => hj h.symm)]
        have hls : (t.set start (f q)).length = t.length := List.length_set t start (f q)
        by_cases hc : start ≤ j ∧ j < start + (n + 1) ∧ j < t.length
        · rw [if_pos (by omega), if_pos hc]
        · rw [if_neg (by omega), if_neg hc]

/-! ### Preservation lemmas

The scheduler proofs below track two kinds of per-slot facts through
the table-mutating operations: the `wakeup_time` of a sleeping slot
(only the wake-up branch of the first `proc_yield` loop ever writes a
`wakeup_time` other than `proc_sleep`), and the accounting triple
`total_cpu_time`/`queue_level`/`queue_time` (which `proc_free` never
touches). -/

theorem wakeup_mlfq (p : Process) (r : Nat) :
    (mlfq_update_level p r).wakeup_time = p.wakeup_time := by
  rw [mlfq_update_level]
  split
  · rfl
  · dsimp only
    split <;> rfl

theorem wakeup_charge (now : Nat) (p : Process) :
    (charge_running now p).wakeup_time = p.wakeup_time := by
  rw [charge_running]
  split
  · rw [wakeup_mlfq]
  · rfl

theorem wakeupAt_set {t : ProcTable} {j : Nat} {p p' : Process}
    (hget : t.get? j = some p) (hw : p'.wakeup_time = p.wakeup_time) (i : Nat) :
    wakeupAt (t.set j p') i = wakeupAt t i := by
  by_cases hij : j = i
  · subst hij
    rw [wakeupAt, wakeupAt, List.get?_set_eq_of_lt _ (get?_some_lt hget), hget]
    simp [hw]
  · rw [wakeupAt, wakeupAt, List.get?_set_ne _ _ hij]

theorem wakeupAt_upd_first (cond : Process → Bool) (f : Process → Process)
    (hf : ∀ p, (f p).wakeup_time = p.wakeup_time) (t : ProcTable) (start fuel i : Nat) :
    wakeupAt (upd_first cond f t start fuel) i = wakeupAt t i := by
  rw [upd_first]
  cases hff : find_first cond t start fuel with
  | none => rfl
  | some jp =>
    obtain ⟨hget, _, _⟩ := find_first_some hff
    exact wakeupAt_set hget (hf jp.2) i

theorem wakeupAt_update_range (f : Process → Process)
    (hf : ∀ p, (f p).wakeup_time = p.wakeup_time) (t : ProcTable) (start fuel i : Nat) :
    wakeupAt (update_range f t start fuel) i = wakeupAt t i := by
  rw [wakeupAt, wakeupAt, update_range_get?]
  split
  · cases h : t.get? i <;> simp [hf]
  · rfl

theorem wakeupAt_set_runnable (pid : Int) (now : Nat) (t : ProcTable) (i : Nat) :
    wakeupAt (proc_set_runnable pid now t) i = wakeupAt t i := by
  rw [proc_set_runnable]
  refine wakeupAt_upd_first _ _ ?_ t 0 MAX_NPROCESS i
  intro p
  exact wakeup_charge now p

theorem wakeupAt_try_send {sender : Process} {t t' : ProcTable}
    (h : proc_try_send sender t = some t') (i : Nat) :
    wakeupAt t' i = wakeupAt t i := by
  rw [proc_try_send] at h
  cases hff : find_first
      (fun dst => decide (dst.pid = sender.syscall.receiver ∧ dst.status ≠ .UNUSED))
      t 0 MAX_NPROCESS with
  | none => rw [hff] at h; cases h
  | some jp =>
    obtain ⟨hget, _, _⟩ := find_first_some hff
    rw [hff] at h
    simp only at h
    split at h
    · cases h; rfl
    · split at h
      · cases h; rfl
      · cases h
        refine wakeupAt_set hget ?_ i
        rfl

theorem wakeupAt_try_recv (now : Nat) (t : ProcTable) (r i : Nat) :
    wakeupAt (proc_try_recv now t r) i = wakeupAt t i := by
  rw [proc_try_recv]
  cases hr : t.get? r with
  | none => rfl
  | some receiver =>
    simp only
    split
    · rfl
    · cases h1 : (proc_set_runnable receiver.pid now t).get? r with
      | none => exact wakeupAt_set_runnable _ _ _ _
      | some rec1 =>
        rw [wakeupAt_set_runnable, wakeupAt_set_runnable]

theorem wakeupAt_try_syscall {now : Nat} {t t' : ProcTable} {j : Nat}
    (h : proc_try_syscall now t j = some t') (i : Nat) :
    wakeupAt t' i = wakeupAt t i := by
  rw [proc_try_syscall] at h
  cases hj : t.get? j with
  | none => rw [hj] at h; cases h; rfl
  | some p =>
    rw [hj] at h
    simp only at h
    cases htype : p.syscall.type with
    | SYS_RECV =>
      rw [htype] at h
      cases h
      exact wakeupAt_try_recv now t j i
    | SYS_SEND =>
      rw [htype] at h
      exact wakeupAt_try_send h i

theorem wakeupAt_try_step {now : Nat} {t t' : ProcTable} {j : Nat}
    (h : try_step now t j = some t') (i : Nat) :
    wakeupAt t' i = wakeupAt t i := by
  rw [try_step] at h
  cases hj : t.get? j with
  | none => rw [hj] at h; cases h; rfl
  | some p =>
    rw [hj] at h
    simp only at h
    split at h
    · exact wakeupAt_try_syscall h i
    · cases h; rfl

theorem wakeupAt_wake_step_sleeping {now : Nat} {t : ProcTable} {i w : Nat}
    (hw : wakeupAt t i = some w) (hnw : now < w) (j : Nat) :
    wakeupAt (wake_step now t j) i = wakeupAt t i := by
  rw [wake_step]
  cases hj : t.get? j with
  | none => rfl
  | some p =>
    simp only
    split
    · next hcond =>
      by_cases hij : j = i
      · subst hij
        rw [wakeupAt, hj] at hw
        exfalso
        have : p.wakeup_time = w := by
          simpa using hw
        omega
      · rw [wakeupAt, wakeupAt, List.get?_set_ne _ _ hij]
    · rfl

theorem wakeupAt_boost (t : ProcTable) (i : Nat) (tty : Bool) :
    wakeupAt
      (if !tty then
        upd_first (fun p => decide (p.pid = GPID_SHELL ∧ p.status ≠ .UNUSED))
          (fun p => { p with queue_level := 0, queue_time := 0 }) t 0 MAX_NPROCESS
      else t) i = wakeupAt t i := by
  by_cases htty : (!tty) = true
  · rw [if_pos htty]
    refine wakeupAt_upd_first _ _ ?_ t 0 MAX_NPROCESS i
    intro p
    rfl
  · rw [if_neg htty]

theorem wakeupAt_reset_level (tty : Bool) (now lr : Nat) (t : ProcTable) (i : Nat) :
    wakeupAt (mlfq_reset_level tty now lr t).1 i = wakeupAt t i := by
  rw [mlfq_reset_level]
  by_cases hp : MLFQ_RESET_PERIOD ≤ now - lr
  · rw [if_pos hp]
    dsimp only
    rw [wakeupAt_update_range _ (fun p => by split <;> rfl)]
    exact wakeupAt_boost t i tty
  · rw [if_neg hp]
    exact wakeupAt_boost t i tty

/-! ### Scan invariants

A slot whose `wakeup_time` lies strictly in the future keeps it through
both `proc_yield` scans, and neither scan ever records that slot as the
winner: the sleeping-skip `continue` fires before the selection test. -/

theorem yield_pass1_avoids {now iS w : Nat} (hn : now < w) :
    ∀ (fuel i : Nat) (st st' : YieldScan),
      wakeupAt st.table iS = some w → st.next_idx ≠ iS →
      yield_pass1 now st i fuel = some st' →
      wakeupAt st'.table iS = some w ∧ st'.next_idx ≠ iS := by
  intro fuel
  induction fuel with
  | zero =>
    intro i st st' hw hni h
    rw [yield_pass1] at h
    cases h
    exact ⟨hw, hni⟩
  | succ n ih =>
    intro i st st' hw hni h
    rw [yield_pass1] at h
    have hw1 : wakeupAt (wake_step now st.table i) iS = some w :=
      (wakeupAt_wake_step_sleeping hw hn i).trans hw
    cases hts : try_step now (wake_step now st.table i) i with
    | none => rw [hts] at h; cases h
    | some t2 =>
      rw [hts] at h
      have hw2 : wakeupAt t2 iS = some w := (wakeupAt_try_step hts iS).trans hw1
      simp only at h
      cases hgi : t2.get? i with
      | none =>
        simp only [hgi] at h
        exact ih (i + 1) ⟨t2, st.min_level, st.next_idx⟩ st' hw2 hni h
      | some p2 =>
        simp only [hgi] at h
        split at h
        · exact ih (i + 1) ⟨t2, st.min_level, st.next_idx⟩ st' hw2 hni h
        · next hskip =>
          split at h
          · refine ih (i + 1) ⟨t2, p2.queue_level, i⟩ st' hw2 ?_ h
            intro hii
            apply hskip
            have hii' : i = iS := hii
            rw [hii'] at hgi
            rw [wakeupAt, hgi] at hw2
            have : p2.wakeup_time = w := by simpa using hw2
            omega
          · exact ih (i + 1) ⟨t2, st.min_level, st.next_idx⟩ st' hw2 hni h

theorem yield_pass2_avoids {now iS w : Nat} (hn : now < w) :
    ∀ (fuel i : Nat) (t t' : ProcTable) (sel : Nat),
      wakeupAt t iS = some w →
      yield_pass2 now t i fuel = some (t', sel) →
      sel = MAX_NPROCESS ∨ sel ≠ iS := by
  intro fuel
  induction fuel with
  | zero =>
    intro i t t' sel hw h
    rw [yield_pass2] at h
    cases h
    exact Or.inl rfl
  | succ n ih =>
    intro i t t' sel hw h
    rw [yield_pass2] at h
    cases hts : try_step now t i with
    | none => rw [hts] at h; cases h
    | some t1 =>
      rw [hts] at h
      have hw1 : wakeupAt t1 iS = some w := (wakeupAt_try_step hts iS).trans hw
      simp only at h
      cases hgi : t1.get? i with
      | none =>
        simp only [hgi] at h
        exact ih (i + 1) t1 t' sel hw1 h
      | some p1 =>
        simp only [hgi] at h
        split at h
        · exact ih (i + 1) t1 t' sel hw1 h
        · next hskip =>
          split at h
          · cases h
            refine Or.inr ?_
            intro hii
            apply hskip
            rw [hii] at hgi
            rw [wakeupAt, hgi] at hw1
            have : p1.wakeup_time = w := by simpa using hw1
            omega
          · exact ih (i + 1) t1 t' sel hw1 h

/-- A first scan over a table with no PENDING_SYSCALL slot changes no
slot: the wake-up branch and the syscall re-attempt both require
PENDING_SYSCALL. -/
theorem yield_pass1_no_pending (now : Nat) :
    ∀ (fuel i : Nat) (st : YieldScan),
      (∀ j q, i ≤ j → st.table.get? j = some q → q.status ≠ .PENDING_SYSCALL) →
      ∃ st', yield_pass1 now st i fuel = some st' ∧ st'.table = st.table := by
  intro fuel
  induction fuel with
  | zero =>
    intro i st hnp
    exact ⟨st, rfl, rfl⟩
  | succ n ih =>
    intro i st hnp
    have hnp1 : ∀ j q, i + 1 ≤ j → st.table.get? j = some q →
        q.status ≠ .PENDING_SYSCALL := fun j q hj hq => hnp j q (by omega) hq
    have hwk : wake_step now st.table i = st.table := by
      rw [wake_step]
      cases hj : st.table.get? i with
      | none => rfl
      | some p =>
        simp only
        rw [if_neg]
        intro hc
        exact hnp i p (le_refl i) hj hc.1
    have hts : try_step now st.table i = some st.table := by
      rw [try_step]
      cases hj : st.table.get? i with
      | none => rfl
      | some p =>
        simp only
        rw [if_neg]
        exact hnp i p (le_refl i) hj
    rw [yield_pass1, hwk, hts]
    simp only
    cases hgi : st.table.get? i with
    | none =>
      simp only [hgi]
      exact ih (i + 1) ⟨st.table, st.min_level, st.next_idx⟩ hnp1
    | some p2 =>
      simp only [hgi]
      split
      · exact ih (i + 1) ⟨st.table, st.min_level, st.next_idx⟩ hnp1
      · split
        · exact ih (i + 1) ⟨st.table, p2.queue_level, i⟩ hnp1
        · exact ih (i + 1) ⟨st.table, st.min_level, st.next_idx⟩ hnp1

/-- A first scan over a table whose only PENDING_SYSCALL slot `iS` is a
sleeper whose wake-up time has arrived ends with exactly that slot
woken: `wakeup_time` cleared and status RUNNABLE. -/
theorem yield_pass1_wakes (now : Nat) :
    ∀ (fuel i : Nat) (st : YieldScan) (iS : Nat) (p : Process),
      i ≤ iS → iS < i + fuel →
      st.table.get? iS = some p →
      p.status = .PENDING_SYSCALL → 0 < p.wakeup_time → p.wakeup_time ≤ now →
      (∀ j q, j ≠ iS → st.table.get? j = some q → q.status ≠ .PENDING_SYSCALL) →
      ∃ st', yield_pass1 now st i fuel = some st' ∧
        st'.table = st.table.set iS { p with wakeup_time := 0, status := .RUNNABLE } := by
  intro fuel
  induction fuel with
  | zero =>
    intro i st iS p h1 h2
    omega
  | succ n ih =>
    intro i st iS p h1 h2 hget hstat hw0 hwn hother
    rcases Nat.eq_or_lt_of_le h1 with heq | hlt
    · subst heq
      have hwk : wake_step now st.table i =
          st.table.set i { p with wakeup_time := 0, status := .RUNNABLE } := by
        rw [wake_step, hget]
        simp only
        rw [if_pos ⟨hstat, hw0, hwn⟩]
      have hg1 : (st.table.set i { p with wakeup_time := 0, status := .RUNNABLE }).get? i =
          some { p with wakeup_time := 0, status := .RUNNABLE } :=
        List.get?_set_eq_of_lt _ (get?_some_lt hget)
      have hnp1 : ∀ j q, i + 1 ≤ j →
          (st.table.set i { p with wakeup_time := 0, status := .RUNNABLE }).get? j = some q →
          q.status ≠ .PENDING_SYSCALL := by
        intro j q _ hj
        by_cases hij : i = j
        · subst hij
          rw [hg1] at hj
          cases hj
          intro hc
          cases hc
        · rw [List.get?_set_ne _ _ hij] at hj
          exact hother j q (fun hji => hij hji.symm) hj
      have hts : try_step now (st.table.set i { p with wakeup_time := 0, status := .RUNNABLE }) i =
          some (st.table.set i { p with wakeup_time := 0, status := .RUNNABLE }) := by
        rw [try_step, hg1]
        simp only
        rw [if_neg]
        intro hc
        cases hc
      rw [yield_pass1, hwk, hts]
      simp only
      rw [hg1]
      simp only
      rw [if_neg (by simp)]
      split
      · obtain ⟨st', h', htab⟩ :=
          yield_pass1_no_pending now n (i + 1)
            ⟨st.table.set i { p with wakeup_time := 0, status := .RUNNABLE },
              Process.queue_level { p with wakeup_time := 0, status := .RUNNABLE }, i⟩ hnp1
        exact ⟨st', h', htab⟩
      · obtain ⟨st', h', htab⟩ :=
          yield_pass1_no_pending now n (i + 1)
            ⟨st.table.set i { p with wakeup_time := 0, status := .RUNNABLE },
              st.min_level, st.next_idx⟩ hnp1
        exact ⟨st', h', htab⟩
    · have hwk : wake_step now st.table i = st.table := by
        rw [wake_step]
        cases hj : st.table.get? i with
        | none => rfl
        | some q =>
          simp only
          rw [if_neg]
          intro hc
          exact hother i q (by omega) hj hc.1
      have hts : try_step now st.table i = some st.table := by
        rw [try_step]
        cases hj : st.table.get? i with
        | none => rfl
        | some q =>
          simp only
          rw [if_neg]
          exact hother i q (by omega) hj
      rw [yield_pass1, hwk, hts]
      simp only
      cases hgi : st.table.get? i with
      | none =>
        simp only [hgi]
        exact ih (i + 1) ⟨st.table, st.min_level, st.next_idx⟩ iS p hlt (by omega) hget hstat
          hw0 hwn hother
      | some p2 =>
        simp only [hgi]
        split
        · exact ih (i + 1) ⟨st.table, st.min_level, st.next_idx⟩ iS p hlt (by omega) hget hstat
            hw0 hwn hother
        · split
          · exact ih (i + 1) ⟨st.table, p2.queue_level, i⟩ iS p hlt (by omega) hget hstat
              hw0 hwn hother
          · exact ih (i + 1) ⟨st.table, st.min_level, st.next_idx⟩ iS p hlt (by omega) hget hstat
              hw0 hwn hother

/-! ### Accounting preservation through `proc_free` -/

/-- Equality of the accounting triple a transition out of RUNNING is
supposed to maintain: CPU time and the two MLFQ counters. -/
def statsEq (p q : Process) : Prop :=
  p.total_cpu_time = q.total_cpu_time ∧ p.queue_level = q.queue_level ∧ p.queue_time = q.queue_time

theorem statsEq_refl (p : Process) : statsEq p p := ⟨rfl, rfl, rfl⟩

theorem statsEq_trans {p q r : Process} (h1 : statsEq p q) (h2 : statsEq q r) : statsEq p r :=
  ⟨h1.1.trans h2.1, h1.2.1.trans h2.2.1, h1.2.2.trans h2.2.2⟩

theorem stats_set {t : ProcTable} {i : Nat} {p p' : Process}
    (hget : t.get? i = some p) (hs : statsEq p' p) (j : Nat) {r' : Process}
    (h : (t.set i p').get? j = some r') : ∃ q, t.get? j = some q ∧ statsEq r' q := by
  by_cases hij : i = j
  · subst hij
    rw [List.get?_set_eq_of_lt _ (get?_some_lt hget)] at h
    cases h
    exact ⟨p, hget, hs⟩
  · rw [List.get?_set_ne _ _ hij] at h
    exact ⟨r', h, statsEq_refl r'⟩

theorem stats_update_range {f : Process → Process} (hf : ∀ p, statsEq (f p) p)
    {t : ProcTable} {start fuel j : Nat} {p' : Process}
    (h : (update_range f t start fuel).get? j = some p') :
    ∃ q, t.get? j = some q ∧ statsEq p' q := by
  rw [update_range_get?] at h
  split at h
  · cases hq : t.get? j with
    | none => rw [hq] at h; cases h
    | some q =>
      rw [hq, Option.map_some'] at h
      cases h
      exact ⟨q, rfl, hf q⟩
  · exact ⟨p', h, statsEq_refl p'⟩

/-- `proc_free` never touches `total_cpu_time`, `queue_level` or
`queue_time` of any slot: it only stamps `termination_time` and sets
statuses to UNUSED. -/
theorem proc_free_stats (pid : Int) (now : Nat) (t : ProcTable) (j : Nat) (p' : Process)
    (h : (proc_free pid now t).get? j = some p') :
    ∃ q, t.get? j = some q ∧ statsEq p' q := by
  rw [proc_free] at h
  split at h
  · cases hff : find_first (fun p => decide (p.pid = pid ∧ p.status ≠ .UNUSED))
        t 0 MAX_NPROCESS with
    | none =>
      rw [hff] at h
      exact ⟨p', h, statsEq_refl p'⟩
    | some ip =>
      rw [hff] at h
      simp only at h
      obtain ⟨hget, _, _⟩ := find_first_some hff
      rw [proc_set_status] at h
      obtain ⟨q1, hq1, hs1⟩ :=
        stats_update_range (fun p => by split; exact statsEq_refl _; exact statsEq_refl _) h
      have hs0 : statsEq { ip.2 with termination_time := now } ip.2 := ⟨rfl, rfl, rfl⟩
      obtain ⟨q, hq, hs2⟩ := stats_set hget hs0 j hq1
      exact ⟨q, hq, statsEq_trans hs1 hs2⟩
  · exact stats_update_range (fun p => by split; exact statsEq_refl _; exact statsEq_refl _) h

/-! ### Concrete tables

Fixtures used by the concrete evaluations below.  A freshly booted
kernel's `proc_set` is all-zero memory, so the blank slot carries pid 0,
status UNUSED (the first enumerator) and zeroed times; the blank syscall
record's contents are immaterial to every scenario that reads them. -/

/-- A neutral syscall record for slots that are not mid-IPC. -/
def blankSyscall : Syscall := ⟨.SYS_SEND, 0, 0, .DONE, []⟩

/-- A zeroed, UNUSED slot. -/
def blankProc : Process := ⟨0, blankSyscall, .UNUSED, 0, 0, 0, 0, 0, 0, 0, 0, 0, 0⟩

/-- A RUNNABLE slot at a given MLFQ level. -/
def runnableProc (pid : Int) (lvl : Nat) : Process :=
  { blankProc with pid := pid, status := .RUNNABLE, queue_level := lvl }

/-- A LOADING slot (alloc done, loader not yet finished). -/
def loadingProc (pid : Int) : Process := { blankProc with pid := pid, status := .LOADING }

/-- For claim C1: the only READY/RUNNABLE process sits in slot
`MAX_NPROCESS` (= 16), the table's last valid slot. -/
def tableC1 : ProcTable := List.replicate 16 blankProc ++ [runnableProc 7 0]

/-- For claim C2: slot 2 is RUNNABLE at level 3, slot 16 is RUNNABLE at
level 1 (the strictly better level). -/
def tableC2 : ProcTable :=
  blankProc :: blankProc :: runnableProc 3 3 ::
    (List.replicate 13 blankProc ++ [runnableProc 7 1])

/-- For claim C3: slots 1..15 are occupied, so `proc_alloc` places the
next process in slot 16. -/
def tableC3 : ProcTable :=
  blankProc :: ((List.range 15).map (fun i => loadingProc (101 + (i : Int))) ++ [blankProc])

/-- The table `proc_alloc` produces from `tableC3` with counter 50 at
time 10: the new process (pid 51) lands in slot 16. -/
def tableC3a : ProcTable :=
  tableC3.set 16 { blankProc with pid := 51, status := .LOADING, creation_time := 10 }

/-- For claims C4 and C10: slot 1 holds pid 9, RUNNING since time 5. -/
def tableC4 : ProcTable :=
  blankProc :: { blankProc with pid := 9, status := .RUNNING, last_schedule_time := 5 } ::
    List.replicate 15 blankProc

/-- For claim C6: non-UNUSED slots at level 3 in slot 1 and in slot 16. -/
def tableC6 : ProcTable :=
  blankProc :: { blankProc with pid := 2, status := .RUNNABLE, queue_level := 3 } ::
    (List.replicate 14 blankProc ++
      [{ blankProc with pid := 7, status := .RUNNABLE, queue_level := 3 }])

/-- For claim C7: the receiver (pid 8) lives in slot 16 and is parked in
a matching wildcard RECV. -/
def tableC7 : ProcTable :=
  List.replicate 16 blankProc ++
    [{ blankProc with
        pid := 8, status := .RUNNABLE, syscall := ⟨.SYS_RECV, GPID_ALL, 0, .PENDING, []⟩ }]

/-- For claim C7: a sender (pid 5) whose pending syscall is
SEND(8, [1, 2, 3]). -/
def senderC7 : Process :=
  { blankProc with
    pid := 5, status := .PENDING_SYSCALL, syscall := ⟨.SYS_SEND, 0, 8, .PENDING, [1, 2, 3]⟩ }

/-! ### Claims C1, C2, C3, C7: the `MAX_NPROCESS` slot bugs

kernel.c uses `next_idx = MAX_NPROCESS` both as the none-found sentinel
of the selection scans and implicitly (via `next_idx < MAX_NPROCESS`)
as the idle test, although slot `MAX_NPROCESS` is a valid process slot:
`proc_alloc` fills `1..MAX_NPROCESS` while every other table walk stops
at `MAX_NPROCESS - 1`. -/

/-- Claim C1 (code bug): with the only READY/RUNNABLE, non-sleeping
process in slot `MAX_NPROCESS`, `proc_yield` takes the idle branch
(`core_to_proc_idx = 0`, timer reset, `mstatus.MIE`, `wfi`) even though
a runnable process exists at the end of the selection scan, because the
none-found sentinel `MAX_NPROCESS` coincides with that slot's index. -/
theorem yield_idles_despite_runnable_last_slot :
    (proc_yield 100 true 100 0 tableC1).map (fun r => (r.core_idx, r.idled)) = some (0, true) ∧
    (tableC1.get? MAX_NPROCESS).map (fun p => (p.status, p.wakeup_time)) =
      some (.RUNNABLE, 0) := by
  constructor
  · decide
  · decide

/-- Claim C2 (code bug): with slot 2 RUNNABLE at `queue_level` 3 and
slot `MAX_NPROCESS` RUNNABLE at `queue_level` 1, `proc_yield`
dispatches slot 2 — not the minimum-level process: the first scan's
winner (slot 16) equals the sentinel, so the fallback scan overrides it
with the first READY/RUNNABLE slot by index. -/
theorem yield_dispatches_higher_level_over_last_slot :
    (proc_yield 100 true 100 0 tableC2).map (fun r => (r.core_idx, r.idled)) =
      some (2, false) ∧
    (tableC2.get? 2).map Process.queue_level = some 3 ∧
    (tableC2.get? MAX_NPROCESS).map (fun p => (p.status, p.queue_level, p.wakeup_time)) =
      some (.RUNNABLE, 1, 0) := by
  refine ⟨by decide, by decide, by decide⟩

/-- Claim C3 (code bug): when slots 1..15 are occupied, `proc_alloc`
returns pid 51 placed in slot `MAX_NPROCESS` (its scan runs over
`1..MAX_NPROCESS`), but `proc_set_ready`, `proc_set_running`,
`proc_set_runnable` and `proc_set_pending` scan only
`0..MAX_NPROCESS-1` and therefore never locate that PCB: each is a
no-op on the allocated table. -/
theorem alloc_last_slot_unreachable_by_status_helpers :
    proc_alloc 50 10 tableC3 = some (51, tableC3a) ∧
    (tableC3a.get? MAX_NPROCESS).map (fun p => (p.pid, p.status)) = some (51, .LOADING) ∧
    proc_set_ready 51 tableC3a = tableC3a ∧
    proc_set_running 51 99 tableC3a = tableC3a ∧
    proc_set_runnable 51 99 tableC3a = tableC3a ∧
    proc_set_pending 51 99 tableC3a = tableC3a := by
  refine ⟨by decide, by decide, by decide, by decide, by decide, by decide⟩

/-- Claim C7 (code bug): `proc_try_send` walks only
`0..MAX_NPROCESS-1`, so a sender naming the receiver that sits in slot
`MAX_NPROCESS` hits the `FATAL` branch even though a non-UNUSED PCB
with that pid exists and is parked in a matching wildcard RECV. -/
theorem try_send_fatal_for_receiver_in_last_slot :
    proc_try_send senderC7 tableC7 = none ∧
    senderC7.syscall.receiver = 8 ∧
    (tableC7.get? MAX_NPROCESS).map
        (fun p => (p.pid, p.status, p.syscall.type, p.syscall.status, p.syscall.sender)) =
      some (8, .RUNNABLE, .SYS_RECV, .PENDING, GPID_ALL) := by
  refine ⟨by decide, by decide, by decide⟩

/-! ### Claim C5: `mlfq_update_level` at the bottom level -/

/-- Claim C5 (counterexample): for a process already at the bottom
level, `mlfq_update_level` returns before touching `queue_time`, so the
claimed unconditional `queue_time := queue_time + runtime` fails. -/
theorem bottom_level_update_drops_runtime :
    (mlfq_update_level { blankProc with queue_level := MLFQ_LEVELS - 1 } 5).queue_time = 0 ∧
    ((0 : Nat) ≠ 0 + 5) := by
  refine ⟨by decide, by decide⟩

/-- Claim C5 (amended): a process at level `MLFQ_LEVELS - 1` or deeper
is returned unchanged (never demoted, `queue_time` not accumulated);
otherwise `runtime` is added to `queue_time`, and if the sum reaches
the level quantum `(queue_level + 1) * 100000` the process is demoted
one level with `queue_time` reset to 0. -/
theorem mlfq_update_level_behaviour (p : Process) (r : Nat) :
    (MLFQ_LEVELS - 1 ≤ p.queue_level → mlfq_update_level p r = p) ∧
    (p.queue_level < MLFQ_LEVELS - 1 →
      if (p.queue_level + 1) * 100000 ≤ p.queue_time + r then
        mlfq_update_level p r = { p with queue_level := p.queue_level + 1, queue_time := 0 }
      else
        mlfq_update_level p r = { p with queue_time := p.queue_time + r }) := by
  constructor
  · intro h
    rw [mlfq_update_level, if_pos (show MLFQ_NLEVELS - 1 ≤ p.queue_level from h)]
  · intro h
    have h5 : p.queue_level < 4 := by
      rw [show MLFQ_LEVELS = 5 from rfl] at h
      omega
    rw [mlfq_update_level,
      if_neg (show ¬MLFQ_NLEVELS - 1 ≤ p.queue_level by
        rw [show MLFQ_NLEVELS = 5 from rfl]; omega)]
    dsimp only
    by_cases hq : (p.queue_level + 1) * 100000 ≤ p.queue_time + r
    · rw [if_pos hq,
        if_pos (show MLFQ_LEVEL_RUNTIME p.queue_level ≤ p.queue_time + r from hq)]
    · rw [if_neg hq,
        if_neg (show ¬MLFQ_LEVEL_RUNTIME p.queue_level ≤ p.queue_time + r from hq)]

/-- Witness for `mlfq_update_level_behaviour`: at level 4 a call is the
identity; at level 0 a 100 ms `runtime` forces a demotion. -/
theorem mlfq_update_level_behaviour_witness :
    mlfq_update_level { blankProc with queue_level := 4 } 5 =
      { blankProc with queue_level := 4 } ∧
    mlfq_update_level { blankProc with queue_level := 0 } 100000 =
      { blankProc with queue_level := 1, queue_time := 0 } :=
  ⟨(mlfq_update_level_behaviour { blankProc with queue_level := 4 } 5).1 (by decide),
   by
    have h := (mlfq_update_level_behaviour { blankProc with queue_level := 0 } 100000).2
      (by decide)
    rw [if_pos (by decide)] at h
    exact h⟩


/-! ### Claim C4: accounting on transitions out of RUNNING -/

/-- The RUNNING slot 1 of `tableC4`. -/
def runningC4 : Process := { blankProc with pid := 9, status := .RUNNING, last_schedule_time := 5 }

/-- Slot 1 of `tableC4` after `proc_free 9` at time 12. -/
def freedC4 : Process :=
  { blankProc with pid := 9, status := .UNUSED, last_schedule_time := 5, termination_time := 12 }

/-- Claim C4 (counterexample): `proc_free` moves a RUNNING PCB to
UNUSED without adding `now - last_schedule_time` to `total_cpu_time`
(and without any MLFQ accounting): freeing pid 9, RUNNING since time 5,
at time 12 leaves `total_cpu_time = 0`, not `0 + (12 - 5)`. -/
theorem free_running_skips_cpu_accounting :
    (tableC4.get? 1).map (fun p => (p.status, p.last_schedule_time, p.total_cpu_time)) =
      some (.RUNNING, 5, 0) ∧
    ((proc_free 9 12 tableC4).get? 1).map (fun p => (p.status, p.total_cpu_time)) =
      some (.UNUSED, 0) ∧
    ((0 : Nat) ≠ 0 + (12 - 5)) :=
  ⟨by decide, by decide, by decide⟩

/-- Claim C4 (amended): of the operations that move a PCB out of
RUNNING, `proc_set_runnable` and `proc_set_pending` (on the first slot
matching the pid, when `last_schedule_time > 0`) add
`now - last_schedule_time` to `total_cpu_time` and pass that same
interval to `mlfq_update_level` before the status change; `proc_free`
marks the slot UNUSED with no CPU-time or MLFQ accounting at all (its
`total_cpu_time`, `queue_level` and `queue_time` are left untouched on
every slot). -/
theorem out_of_running_accounting (pid : Int) (now : Nat) (t : ProcTable) (i : Nat)
    (p : Process) (hi : i < MAX_NPROCESS) (hget : t.get? i = some p) (hpid : p.pid = pid)
    (hfirst : ∀ j, j < i → (t.get? j).map Process.pid ≠ some pid)
    (hrun : p.status = .RUNNING) (hlst : 0 < p.last_schedule_time) :
    proc_set_runnable pid now t = t.set i
      { mlfq_update_level
          { p with total_cpu_time := p.total_cpu_time + (now - p.last_schedule_time) }
          (now - p.last_schedule_time) with status := .RUNNABLE } ∧
    proc_set_pending pid now t = t.set i
      { mlfq_update_level
          { p with total_cpu_time := p.total_cpu_time + (now - p.last_schedule_time) }
          (now - p.last_schedule_time) with status := .PENDING_SYSCALL } ∧
    (∀ j p', (proc_free pid now t).get? j = some p' →
      ∃ q, t.get? j = some q ∧ p'.total_cpu_time = q.total_cpu_time ∧
        p'.queue_level = q.queue_level ∧ p'.queue_time = q.queue_time) := by
  have hprev : ∀ j q, 0 ≤ j → j < i → t.get? j = some q →
      (fun r => decide (r.pid = pid)) q = false := by
    intro j q _ hji hq
    refine decide_eq_false ?_
    intro hqp
    apply hfirst j hji
    rw [hq, Option.map_some', hqp]
  have hcond : (fun r => decide (r.pid = pid)) p = true := decide_eq_true hpid
  have hc : charge_running now p =
      mlfq_update_level
        { p with total_cpu_time := p.total_cpu_time + (now - p.last_schedule_time) }
        (now - p.last_schedule_time) := by
    rw [charge_running, if_pos ⟨hrun, hlst⟩]
  refine ⟨?_, ?_, ?_⟩
  · rw [proc_set_runnable, upd_first_eq_set (Nat.zero_le i) (by omega) hget hcond hprev, hc]
  · rw [proc_set_pending, upd_first_eq_set (Nat.zero_le i) (by omega) hget hcond hprev, hc]
  · intro j p' h
    obtain ⟨q, hq, hs⟩ := proc_free_stats pid now t j p' h
    exact ⟨q, hq, hs.1, hs.2.1, hs.2.2⟩

/-- Witness for `out_of_running_accounting` at `tableC4` (pid 9,
RUNNING since 5, transitions at time 12; `proc_free` leaves the freed
slot's accounting triple untouched). -/
theorem out_of_running_accounting_witness :
    proc_set_runnable 9 12 tableC4 = tableC4.set 1
      { mlfq_update_level
          { runningC4 with
            total_cpu_time := runningC4.total_cpu_time + (12 - runningC4.last_schedule_time) }
          (12 - runningC4.last_schedule_time) with status := .RUNNABLE } ∧
    proc_set_pending 9 12 tableC4 = tableC4.set 1
      { mlfq_update_level
          { runningC4 with
            total_cpu_time := runningC4.total_cpu_time + (12 - runningC4.last_schedule_time) }
          (12 - runningC4.last_schedule_time) with status := .PENDING_SYSCALL } ∧
    (∃ q, tableC4.get? 1 = some q ∧ freedC4.total_cpu_time = q.total_cpu_time ∧
      freedC4.queue_level = q.queue_level ∧ freedC4.queue_time = q.queue_time) :=
  ⟨(out_of_running_accounting 9 12 tableC4 1 runningC4 (by decide) rfl rfl (by decide)
      rfl (by decide)).1,
   (out_of_running_accounting 9 12 tableC4 1 runningC4 (by decide) rfl rfl (by decide)
      rfl (by decide)).2.1,
   (out_of_running_accounting 9 12 tableC4 1 runningC4 (by decide) rfl rfl (by decide)
      rfl (by decide)).2.2 1 freedC4 (by decide)⟩

/-! ### Claim C6: the periodic MLFQ reset -/

/-- Claim C6 (counterexample): (a) the reset timestamp starts at zero,
so the very first call — here at uptime 5 µs — does not reset (the
level-3 slot keeps its level and no new timestamp is recorded), and
(b) even after a full period a non-UNUSED PCB in slot `MAX_NPROCESS`
is never reset, since the loop stops at `MAX_NPROCESS - 1`. -/
theorem first_reset_call_needs_elapsed_period :
    ((mlfq_reset_level true 5 0 tableC6).1.get? 1).map Process.queue_level = some 3 ∧
    (mlfq_reset_level true 5 0 tableC6).2 = 0 ∧
    ((mlfq_reset_level true 10000000 0 tableC6).1.get? MAX_NPROCESS).map
        (fun p => (p.status, p.queue_level)) = some (.RUNNABLE, 3) :=
  ⟨by decide, by decide, by decide⟩

/-- Claim C6 (amended): with no pending TTY input, whenever at least
`MLFQ_RESET_PERIOD` has elapsed since the recorded last reset
(`now - last_reset ≥ MLFQ_RESET_PERIOD`), `mlfq_reset_level` sets
`queue_level = 0` and `queue_time = 0` on every non-UNUSED PCB at
indices `0..MAX_NPROCESS-1` (slot `MAX_NPROCESS` and UNUSED slots are
untouched) and records `now` as the new last reset; otherwise it
changes nothing and keeps the old timestamp.  The timestamp is
initialised to zero, so the very first call resets only once at least
`MLFQ_RESET_PERIOD` µs have elapsed since time zero. -/
theorem mlfq_reset_fires (t : ProcTable) (now lr : Nat) :
    (MLFQ_RESET_PERIOD ≤ now - lr →
      (mlfq_reset_level true now lr t).2 = now ∧
      (∀ j, j < MAX_NPROCESS → ∀ p, t.get? j = some p →
        (mlfq_reset_level true now lr t).1.get? j =
          some (if p.status ≠ .UNUSED then { p with queue_level := 0, queue_time := 0 }
                else p)) ∧
      (∀ j, MAX_NPROCESS ≤ j → (mlfq_reset_level true now lr t).1.get? j = t.get? j)) ∧
    (¬MLFQ_RESET_PERIOD ≤ now - lr → mlfq_reset_level true now lr t = (t, lr)) := by
  have hboost :
      (if !true then
        upd_first (fun p => decide (p.pid = GPID_SHELL ∧ p.status ≠ .UNUSED))
          (fun p => { p with queue_level := 0, queue_time := 0 }) t 0 MAX_NPROCESS
      else t) = t := by
    simp
  constructor
  · intro hp
    refine ⟨?_, ?_, ?_⟩
    · rw [mlfq_reset_level, hboost, if_pos hp]
    · intro j hj p hget
      rw [mlfq_reset_level, hboost, if_pos hp]
      have hl : j < t.length := get?_some_lt hget
      show (update_range _ t 0 MAX_NPROCESS).get? j = _
      rw [update_range_get?, if_pos ⟨Nat.zero_le j, by omega, hl⟩, hget, Option.map_some']
    · intro j hj
      rw [mlfq_reset_level, hboost, if_pos hp]
      show (update_range _ t 0 MAX_NPROCESS).get? j = t.get? j
      rw [update_range_get?, if_neg (by omega)]
  · intro hp
    rw [mlfq_reset_level, hboost, if_neg hp]

/-- Witness for `mlfq_reset_fires`: on `tableC6` a call at uptime
`MLFQ_RESET_PERIOD` resets slot 1 (level 3 → 0), records the time, and
leaves slot `MAX_NPROCESS` alone; a call at uptime 5 changes nothing. -/
theorem mlfq_reset_fires_witness :
    (mlfq_reset_level true 10000000 0 tableC6).2 = 10000000 ∧
    (mlfq_reset_level true 10000000 0 tableC6).1.get? 1 =
      some (if ({ blankProc with pid := 2, status := .RUNNABLE, queue_level := 3 } :
          Process).status ≠ .UNUSED then
        { ({ blankProc with pid := 2, status := .RUNNABLE, queue_level := 3 } : Process) with
          queue_level := 0, queue_time := 0 }
      else { blankProc with pid := 2, status := .RUNNABLE, queue_level := 3 }) ∧
    (mlfq_reset_level true 10000000 0 tableC6).1.get? MAX_NPROCESS =
      tableC6.get? MAX_NPROCESS ∧
    mlfq_reset_level true 5 0 tableC6 = (tableC6, 0) :=
  ⟨((mlfq_reset_fires tableC6 10000000 0).1 (by decide)).1,
   ((mlfq_reset_fires tableC6 10000000 0).1 (by decide)).2.1 1 (by decide) _ rfl,
   ((mlfq_reset_fires tableC6 10000000 0).1 (by decide)).2.2 MAX_NPROCESS (by decide),
   (mlfq_reset_fires tableC6 5 0).2 (by decide)⟩


/-! ### Claim C8: IPC arrival-order commutativity

The scenario: a fresh two-process table; process S (pid 5, slot 1) and
process R (pid 6, slot 2), both RUNNING on their cores with
`last_schedule_time = 0` (so the transition helpers charge no CPU time
and the outcome is independent of the posting instants).  S posts
SEND(6, m); R posts RECV with sender pattern `rm` (the wildcard
`GPID_ALL` or specifically 5).  Each posting models the ECALL path of
`excp_entry`; one first-scan sweep of `proc_yield` then drives the
rendez-vous to its steady state. -/

/-- S of the C8 scenario: pid 5, RUNNING, never charged. -/
def sProcC8 : Process := { blankProc with pid := 5, status := .RUNNING }

/-- R of the C8 scenario: pid 6, RUNNING, never charged. -/
def rProcC8 : Process := { blankProc with pid := 6, status := .RUNNING }

/-- The C8 base table. -/
def tableC8 : ProcTable := blankProc :: sProcC8 :: rProcC8 :: List.replicate 14 blankProc

/-- The syscall record S submits: SEND to pid 6 with payload `m`. -/
def sendRec (m : List Nat) : Syscall := ⟨.SYS_SEND, 0, 6, .PENDING, m⟩

/-- The syscall record R submits: RECV from `rm`. -/
def recvRec (rm : Int) : Syscall := ⟨.SYS_RECV, rm, 0, .PENDING, []⟩

/-- SEND posted first (at 50), RECV second (at 60), then one sweep. -/
def ipc_send_first (m : List Nat) (rm : Int) : Option ProcTable :=
  ((post_syscall 50 tableC8 1 (sendRec m)).bind fun t =>
    post_syscall 60 t 2 (recvRec rm)).bind (yield_sweep 70)

/-- RECV posted first (at 50), SEND second (at 60), then one sweep. -/
def ipc_recv_first (m : List Nat) (rm : Int) : Option ProcTable :=
  ((post_syscall 50 tableC8 2 (recvRec rm)).bind fun t =>
    post_syscall 60 t 1 (sendRec m)).bind (yield_sweep 70)


/-- S's slot right after posting the SEND: record submitted, caller
PENDING_SYSCALL, `mepc` advanced. -/
def sPost (m : List Nat) : Process :=
  ⟨5, ⟨.SYS_SEND, 0, 6, .PENDING, m⟩, .PENDING_SYSCALL, 4, 0, 0, 0, 0, 0, 0, 0, 0, 0⟩

/-- R's slot right after posting the RECV. -/
def rPost (rm : Int) : Process :=
  ⟨6, ⟨.SYS_RECV, rm, 0, .PENDING, []⟩, .PENDING_SYSCALL, 4, 0, 0, 0, 0, 0, 0, 0, 0, 0⟩

/-- R's slot once a matching SEND has been delivered into it. -/
def rDone (m : List Nat) : Process :=
  ⟨6, ⟨.SYS_RECV, 5, 0, .DONE, m⟩, .PENDING_SYSCALL, 4, 0, 0, 0, 0, 0, 0, 0, 0, 0⟩

/-- The common steady state: both S and R RUNNABLE, R's syscall record
completed with the actual sender pid 5 and payload `m`. -/
def ipcFinal (m : List Nat) : ProcTable :=
  blankProc ::
    ⟨5, ⟨.SYS_SEND, 0, 6, .PENDING, m⟩, .RUNNABLE, 4, 0, 0, 0, 0, 0, 0, 0, 0, 0⟩ ::
    ⟨6, ⟨.SYS_RECV, 5, 0, .DONE, m⟩, .RUNNABLE, 4, 0, 0, 0, 0, 0, 0, 0, 0, 0⟩ ::
    List.replicate 14 blankProc

/-- Send-first, stage 1: S posts; R (not yet receiving) is untouched. -/
theorem ipcA1 (m : List Nat) :
    post_syscall 50 tableC8 1 (sendRec m) =
      some (blankProc :: sPost m :: rProcC8 :: List.replicate 14 blankProc) := rfl

/-- Send-first, stage 2: R posts; its record stays PENDING for now. -/
theorem ipcA2 (m : List Nat) (rm : Int) :
    post_syscall 60 (blankProc :: sPost m :: rProcC8 :: List.replicate 14 blankProc) 2
        (recvRec rm) =
      some (blankProc :: sPost m :: rPost rm :: List.replicate 14 blankProc) := rfl

/-- Slots 3 and beyond of the C8 tables are blank and in particular
not PENDING_SYSCALL. -/
theorem cons3_replicate_blank (a b c : Process) {j : Nat} (h3 : 3 ≤ j) {q : Process}
    (hq : (a :: b :: c :: List.replicate 14 blankProc).get? j = some q) : q = blankProc := by
  obtain ⟨n, rfl⟩ : ∃ n, j = n + 3 := ⟨j - 3, by omega⟩
  have hq' : (List.replicate 14 blankProc).get? n = some q := hq
  exact List.eq_of_mem_replicate (List.get?_mem hq')

/-- One non-sleeping, non-winning iteration of the first scan,
as a rewrite step: the slot (after wake-up and syscall re-attempt)
is not selected, so only the table advances. -/
theorem pass1_iter_ns (now : Nat) (st : YieldScan) (i fuel : Nat) (t2 : ProcTable)
    (p2 : Process)
    (h1 : try_step now (wake_step now st.table i) i = some t2)
    (h2 : t2.get? i = some p2)
    (h3 : ¬(0 < p2.wakeup_time ∧ now < p2.wakeup_time))
    (h4 : ¬((p2.status = .READY ∨ p2.status = .RUNNABLE) ∧ p2.queue_level < st.min_level)) :
    yield_pass1 now st i (fuel + 1) =
      yield_pass1 now ⟨t2, st.min_level, st.next_idx⟩ (i + 1) fuel := by
  rw [yield_pass1]
  simp only [h1, h2]
  rw [if_neg h3, if_neg h4]

/-- One winning iteration of the first scan, as a rewrite step: the
slot is READY/RUNNABLE below the current minimum and becomes the
provisional winner. -/
theorem pass1_iter_sel (now : Nat) (st : YieldScan) (i fuel : Nat) (t2 : ProcTable)
    (p2 : Process)
    (h1 : try_step now (wake_step now st.table i) i = some t2)
    (h2 : t2.get? i = some p2)
    (h3 : ¬(0 < p2.wakeup_time ∧ now < p2.wakeup_time))
    (h4 : (p2.status = .READY ∨ p2.status = .RUNNABLE) ∧ p2.queue_level < st.min_level) :
    yield_pass1 now st i (fuel + 1) =
      yield_pass1 now ⟨t2, p2.queue_level, i⟩ (i + 1) fuel := by
  rw [yield_pass1]
  simp only [h1, h2]
  rw [if_neg h3, if_pos h4]

/-- R's slot after its RECV completes, as found in `ipcFinal`. -/
def rFinal (m : List Nat) : Process :=
  ⟨6, ⟨.SYS_RECV, 5, 0, .DONE, m⟩, .RUNNABLE, 4, 0, 0, 0, 0, 0, 0, 0, 0, 0⟩

/-- The common tail of both sweeps, from slot 2 on: the table already
holds the delivered message (R's record DONE at slot 2), the scan
completes the RECV there, unblocking both processes by pid, and the
blank remainder of the table changes nothing. -/
theorem ipc_from_two (m : List Nat) :
    (yield_pass1 70
        ⟨blankProc :: sPost m :: rDone m :: List.replicate 14 blankProc,
          MLFQ_LEVELS, 15 + 1⟩ (1 + 1) (14 + 1)).map YieldScan.table =
      some (ipcFinal m) := by
  rw [pass1_iter_sel 70
      ⟨blankProc :: sPost m :: rDone m :: List.replicate 14 blankProc, MLFQ_LEVELS, 15 + 1⟩
      (1 + 1) 14 (ipcFinal m) (rFinal m)
      rfl rfl (fun hc => absurd hc.1 (Nat.lt_irrefl 0)) ⟨Or.inr rfl, Nat.succ_pos 4⟩]
  have hnp : ∀ j q, 1 + 1 + 1 ≤ j → (ipcFinal m).get? j = some q →
      q.status ≠ .PENDING_SYSCALL := by
    intro j q h3 hq
    rw [cons3_replicate_blank _ _ _ h3 hq]
    intro hc
    cases hc
  obtain ⟨st', h', htab⟩ :=
    yield_pass1_no_pending 70 14 (1 + 1 + 1)
      ⟨ipcFinal m, (rFinal m).queue_level, 1 + 1⟩ hnp
  rw [h', Option.map_some', htab]

/-- Send-first, stage 3: one sweep delivers the payload during slot
1's SEND re-attempt, then completes the RECV at slot 2, unblocking
both. -/
theorem ipcA3 (m : List Nat) (rm : Int) (h : rm = GPID_ALL ∨ rm = 5) :
    yield_sweep 70 (blankProc :: sPost m :: rPost rm :: List.replicate 14 blankProc) =
      some (ipcFinal m) := by
  rw [yield_sweep, show (MAX_NPROCESS : Nat) = 15 + 1 from rfl]
  rw [pass1_iter_ns 70
      ⟨blankProc :: sPost m :: rPost rm :: List.replicate 14 blankProc, MLFQ_LEVELS, 15 + 1⟩
      1 15 (blankProc :: sPost m :: rDone m :: List.replicate 14 blankProc) (sPost m)
      (by rcases h with h | h <;> subst h <;> rfl) rfl
      (fun hc => absurd hc.1 (Nat.lt_irrefl 0))
      (fun hc => by
        rcases hc.1 with hs | hs <;> exact ProcStatus.noConfusion hs)]
  exact ipc_from_two m

/-- Recv-first, stage 1: R posts; nothing to receive yet. -/
theorem ipcB1 (rm : Int) :
    post_syscall 50 tableC8 2 (recvRec rm) =
      some (blankProc :: sProcC8 :: rPost rm :: List.replicate 14 blankProc) := rfl

/-- Recv-first, stage 2: S posts and its first `proc_try_send` attempt
delivers immediately into R's pending RECV. -/
theorem ipcB2 (m : List Nat) (rm : Int) (h : rm = GPID_ALL ∨ rm = 5) :
    post_syscall 60 (blankProc :: sProcC8 :: rPost rm :: List.replicate 14 blankProc) 1
        (sendRec m) =
      some (blankProc :: sPost m :: rDone m :: List.replicate 14 blankProc) := by
  rcases h with h | h <;> subst h
  · rfl
  · rfl

/-- Recv-first, stage 3: the delivery already happened at posting
time; the sweep's SEND re-attempt at slot 1 is a no-op (the RECV is no
longer PENDING) and the scan then completes the RECV at slot 2,
unblocking both. -/
theorem ipcB3 (m : List Nat) :
    yield_sweep 70 (blankProc :: sPost m :: rDone m :: List.replicate 14 blankProc) =
      some (ipcFinal m) := by
  rw [yield_sweep, show (MAX_NPROCESS : Nat) = 15 + 1 from rfl]
  rw [pass1_iter_ns 70
      ⟨blankProc :: sPost m :: rDone m :: List.replicate 14 blankProc, MLFQ_LEVELS, 15 + 1⟩
      1 15 (blankProc :: sPost m :: rDone m :: List.replicate 14 blankProc) (sPost m)
      rfl rfl
      (fun hc => absurd hc.1 (Nat.lt_irrefl 0))
      (fun hc => by
        rcases hc.1 with hs | hs <;> exact ProcStatus.noConfusion hs)]
  exact ipc_from_two m

/-- The steady state is a fixed point of further sweeps: neither
process is PENDING_SYSCALL any more, so a whole first scan changes no
slot. -/
theorem ipc_final_steady (m : List Nat) :
    yield_sweep 80 (ipcFinal m) = some (ipcFinal m) := by
  have hnp : ∀ j q, 1 ≤ j → (ipcFinal m).get? j = some q →
      q.status ≠ .PENDING_SYSCALL := by
    intro j q h1 hq
    rcases Nat.lt_or_ge j 3 with h3 | h3
    · interval_cases j
      · have hq' :
            some (⟨5, ⟨.SYS_SEND, 0, 6, .PENDING, m⟩, .RUNNABLE,
              4, 0, 0, 0, 0, 0, 0, 0, 0, 0⟩ : Process) = some q := hq
        cases hq'
        intro hc
        cases hc
      · have hq' :
            some (⟨6, ⟨.SYS_RECV, 5, 0, .DONE, m⟩, .RUNNABLE,
              4, 0, 0, 0, 0, 0, 0, 0, 0, 0⟩ : Process) = some q := hq
        cases hq'
        intro hc
        cases hc
    · rw [cons3_replicate_blank _ _ _ h3 hq]
      intro hc
      cases hc
  obtain ⟨st', h', htab⟩ :=
    yield_pass1_no_pending 80 MAX_NPROCESS 1 ⟨ipcFinal m, MLFQ_LEVELS, MAX_NPROCESS⟩ hnp
  rw [yield_sweep, h', Option.map_some', htab]


/-- Claim C8: IPC matching is commutative in arrival order.  For S
(pid 5) posting SEND(6, m) and R (pid 6) posting RECV with sender
pattern `rm ∈ {GPID_ALL, 5}`, both posting orders reach the same
steady state after the next yield's scan: both processes RUNNABLE, R's
syscall record holding content `m` and sender pid 5; further scans
leave that state fixed. -/
theorem ipc_arrival_order_commutes (m : List Nat) (rm : Int)
    (h : rm = GPID_ALL ∨ rm = 5) :
    ipc_send_first m rm = some (ipcFinal m) ∧
    ipc_recv_first m rm = some (ipcFinal m) ∧
    ((ipcFinal m).get? 1).map Process.status = some .RUNNABLE ∧
    ((ipcFinal m).get? 2).map (fun p => (p.status, p.syscall.sender, p.syscall.content)) =
      some (.RUNNABLE, 5, m) ∧
    yield_sweep 80 (ipcFinal m) = some (ipcFinal m) := by
  refine ⟨?_, ?_, rfl, rfl, ipc_final_steady m⟩
  · rw [ipc_send_first, ipcA1, Option.some_bind, ipcA2, Option.some_bind]
    exact ipcA3 m rm h
  · rw [ipc_recv_first, ipcB1, Option.some_bind, ipcB2 m rm h, Option.some_bind]
    exact ipcB3 m

/-- Witness for `ipc_arrival_order_commutes` at the wildcard RECV and
payload `[1, 2, 3]`. -/
theorem ipc_arrival_order_commutes_witness :
    ipc_send_first [1, 2, 3] GPID_ALL = some (ipcFinal [1, 2, 3]) ∧
    ipc_recv_first [1, 2, 3] GPID_ALL = some (ipcFinal [1, 2, 3]) ∧
    ((ipcFinal [1, 2, 3]).get? 1).map Process.status = some .RUNNABLE ∧
    ((ipcFinal [1, 2, 3]).get? 2).map
        (fun p => (p.status, p.syscall.sender, p.syscall.content)) =
      some (.RUNNABLE, 5, [1, 2, 3]) ∧
    yield_sweep 80 (ipcFinal [1, 2, 3]) = some (ipcFinal [1, 2, 3]) :=
  ipc_arrival_order_commutes [1, 2, 3] GPID_ALL (Or.inl rfl)


/-! ### Claim C9: sleep and wake-up -/

/-- The winning index a dispatch returns is the index it was given. -/
theorem yield_dispatch_idx (now : Nat) (t : ProcTable) (n : Nat) :
    (yield_dispatch now t n).2 = n := by
  rw [yield_dispatch]
  cases h : t.get? n with
  | none => rfl
  | some np => rfl

/-- For claim C9: slot 1 sleeps until time 100 (stale RECV still
PENDING, so its re-attempt is a no-op); slot 2 is RUNNABLE. -/
def sleepingProc : Process :=
  { blankProc with
    pid := 7, status := .PENDING_SYSCALL, wakeup_time := 100,
    syscall := ⟨.SYS_RECV, 0, 0, .PENDING, []⟩ }

/-- The C9 table. -/
def tableC9 : ProcTable :=
  blankProc :: sleepingProc :: runnableProc 3 0 :: List.replicate 14 blankProc

/-- Claim C9: (1) `proc_sleep pid u` at time `now0` parks the first
non-UNUSED slot holding `pid` with `wakeup_time = now0 + u` and status
PENDING_SYSCALL; (2) while `now < wakeup_time`, `proc_yield` never
selects that slot — neither scan can record it as the winner, and the
idle branch parks the core on slot 0; (3) at a scan whose `now` has
reached `wakeup_time` (the slot still PENDING_SYSCALL, no other slot
mid-syscall to interfere), the slot's `wakeup_time` is cleared to 0
and its status set to RUNNABLE. -/
theorem sleep_wakeup_discipline :
    (∀ (pid : Int) (u now0 : Nat) (t : ProcTable) (iS : Nat) (p : Process),
      iS < MAX_NPROCESS → t.get? iS = some p → p.pid = pid → p.status ≠ .UNUSED →
      (∀ j, j < iS →
        (t.get? j).map (fun q => decide (q.pid = pid ∧ q.status ≠ .UNUSED)) ≠ some true) →
      proc_sleep pid u now0 t =
        t.set iS { p with wakeup_time := now0 + u, status := .PENDING_SYSCALL }) ∧
    (∀ (now : Nat) (tty : Bool) (lr ci : Nat) (t : ProcTable) (iS w : Nat),
      1 ≤ iS → iS < MAX_NPROCESS → wakeupAt t iS = some w → now < w →
      ∀ r, proc_yield now tty lr ci t = some r → r.core_idx ≠ iS) ∧
    (∀ (now : Nat) (t : ProcTable) (iS : Nat) (p : Process),
      1 ≤ iS → iS ≤ MAX_NPROCESS → t.get? iS = some p →
      p.status = .PENDING_SYSCALL → 0 < p.wakeup_time → p.wakeup_time ≤ now →
      (∀ j, j < t.length → j ≠ iS →
        (t.get? j).map (fun q => decide (q.status = .PENDING_SYSCALL)) ≠ some true) →
      yield_sweep now t = some (t.set iS { p with wakeup_time := 0, status := .RUNNABLE })) := by
  refine ⟨?_, ?_, ?_⟩
  · intro pid u now0 t iS p h1 hget hpid hun hfirst
    rw [proc_sleep]
    refine upd_first_eq_set (Nat.zero_le iS) (by omega) hget (decide_eq_true ⟨hpid, hun⟩) ?_
    intro j q _ hji hq
    have h2 := hfirst j hji
    rw [hq, Option.map_some'] at h2
    cases hcq : decide (q.pid = pid ∧ q.status ≠ .UNUSED) with
    | false => rfl
    | true => rw [hcq] at h2; exact absurd rfl h2
  · intro now tty lr ci t iS w h1 h2 hw hnw r hr
    have hw0 : wakeupAt (yield_entry now ci t) iS = some w := by
      rw [yield_entry]
      cases hc : t.get? ci with
      | none => exact hw
      | some c =>
        simp only
        split
        · rw [wakeupAt_set_runnable]
          exact hw
        · exact hw
    have hw1 : wakeupAt (mlfq_reset_level tty now lr (yield_entry now ci t)).1 iS = some w :=
      (wakeupAt_reset_level tty now lr _ iS).trans hw0
    rw [proc_yield] at hr
    cases hp1 : yield_pass1 now
        ⟨(mlfq_reset_level tty now lr (yield_entry now ci t)).1, MLFQ_LEVELS, MAX_NPROCESS⟩
        1 MAX_NPROCESS with
    | none => rw [hp1] at hr; cases hr
    | some st =>
      rw [hp1] at hr
      simp only at hr
      obtain ⟨hwst, hnist⟩ :=
        yield_pass1_avoids hnw MAX_NPROCESS 1 _ st hw1 (show MAX_NPROCESS ≠ iS by omega) hp1
      by_cases hni : st.next_idx = MAX_NPROCESS
      · rw [if_pos hni] at hr
        cases hp2 : yield_pass2 now st.table 1 MAX_NPROCESS with
        | none => rw [hp2] at hr; cases hr
        | some ts =>
          rw [hp2] at hr
          simp only at hr
          have hsel :=
            yield_pass2_avoids hnw MAX_NPROCESS 1 st.table ts.1 ts.2 hwst hp2
          split at hr
          · next hlt =>
            cases hr
            show (yield_dispatch now ts.1 ts.2).2 ≠ iS
            rw [yield_dispatch_idx]
            rcases hsel with hmax | hne
            · exfalso
              omega
            · exact hne
          · next =>
            cases hr
            show (0 : Nat) ≠ iS
            omega
      · rw [if_neg hni] at hr
        simp only at hr
        split at hr
        · next hlt =>
          cases hr
          show (yield_dispatch now st.table st.next_idx).2 ≠ iS
          rw [yield_dispatch_idx]
          exact hnist
        · next =>
          cases hr
          show (0 : Nat) ≠ iS
          omega
  · intro now t iS p h1 h2 hget hstat hw0 hwn hother
    have hother' : ∀ j q, j ≠ iS → t.get? j = some q → q.status ≠ .PENDING_SYSCALL := by
      intro j q hj hq hc
      have hjl : j < t.length := get?_some_lt hq
      apply hother j hjl hj
      rw [hq, Option.map_some', decide_eq_true hc]
    obtain ⟨st', h', htab⟩ :=
      yield_pass1_wakes now MAX_NPROCESS 1 ⟨t, MLFQ_LEVELS, MAX_NPROCESS⟩ iS p h1
        (by omega) hget hstat hw0 hwn hother'
    rw [yield_sweep, h', Option.map_some', htab]

/-- Witness for `sleep_wakeup_discipline` on `tableC9`: a sleep call
parks slot 1; a yield at time 50 dispatches some other slot; a scan at
time 150 wakes slot 1. -/
theorem sleep_wakeup_discipline_witness :
    proc_sleep 7 40 10 tableC9 =
      tableC9.set 1 { sleepingProc with wakeup_time := 10 + 40, status := .PENDING_SYSCALL } ∧
    ((proc_yield 50 true 50 0 tableC9).map YieldResult.core_idx ≠ some 1) ∧
    yield_sweep 150 tableC9 =
      some (tableC9.set 1 { sleepingProc with wakeup_time := 0, status := .RUNNABLE }) := by
  refine ⟨?_, ?_, ?_⟩
  · exact sleep_wakeup_discipline.1 7 40 10 tableC9 1 sleepingProc (by decide) rfl rfl
      (by decide) (by decide)
  · cases hr : proc_yield 50 true 50 0 tableC9 with
    | none => simp
    | some r =>
      have hd : r.core_idx ≠ 1 :=
        sleep_wakeup_discipline.2.1 50 true 50 0 tableC9 1 100 (by decide) (by decide)
          (by decide) (by decide) r hr
      simpa using hd
  · exact sleep_wakeup_discipline.2.2 150 tableC9 1 sleepingProc (by decide) (by decide) rfl
      rfl (by decide) (by decide) (by decide)


/-! ### Claim C10: status helpers match by pid alone -/

/-- A freed slot: `proc_free` leaves the stale pid 9 behind with
status UNUSED. -/
def freedC10 : Process := { blankProc with pid := 9, status := .UNUSED }

/-- A receiver whose RECV has completed, its record naming the stale
pid 9 as the matched sender. -/
def receiverC10 : Process :=
  { blankProc with
    pid := 6, status := .PENDING_SYSCALL, syscall := ⟨.SYS_RECV, 9, 0, .DONE, [3]⟩ }

/-- The C10 table: slot 1 freed (stale pid 9), slot 2 the receiver. -/
def tableC10 : ProcTable :=
  blankProc :: freedC10 :: receiverC10 :: List.replicate 14 blankProc

/-- Claim C10: `proc_set_runnable` matches a PCB by pid alone, with no
status check: on the first slot whose pid matches it sets status
RUNNABLE even when that slot is UNUSED; concretely, `proc_try_recv`
completing a RECV whose recorded sender is the stale pid of a freed
slot moves that UNUSED slot to RUNNABLE. -/
theorem set_runnable_matches_pid_only :
    (∀ (pid : Int) (now : Nat) (t : ProcTable) (i : Nat) (p : Process),
      i < MAX_NPROCESS → t.get? i = some p → p.pid = pid → p.status = .UNUSED →
      (∀ j, j < i → (t.get? j).map Process.pid ≠ some pid) →
      proc_set_runnable pid now t = t.set i { p with status := .RUNNABLE }) ∧
    (proc_try_recv 99 tableC10 2).get? 1 = some { freedC10 with status := .RUNNABLE } ∧
    (tableC10.get? 1).map (fun p => (p.pid, p.status)) = some (9, .UNUSED) := by
  refine ⟨?_, by decide, by decide⟩
  intro pid now t i p hi hget hpid hun hfirst
  have hprev : ∀ j q, 0 ≤ j → j < i → t.get? j = some q →
      (fun r => decide (r.pid = pid)) q = false := by
    intro j q _ hji hq
    refine decide_eq_false ?_
    intro hqp
    apply hfirst j hji
    rw [hq, Option.map_some', hqp]
  have hc : { charge_running now p with status := ProcStatus.RUNNABLE } =
      { p with status := ProcStatus.RUNNABLE } := by
    rw [charge_running, if_neg]
    intro hcon
    have hcon1 := hcon.1
    rw [hun] at hcon1
    exact ProcStatus.noConfusion hcon1
  rw [proc_set_runnable, upd_first_eq_set (Nat.zero_le i) (by omega) hget
    (decide_eq_true hpid) hprev, hc]

/-- Witness for `set_runnable_matches_pid_only`: waking the stale pid
9 on `tableC10` turns the freed slot 1 RUNNABLE. -/
theorem set_runnable_matches_pid_only_witness :
    proc_set_runnable 9 99 tableC10 = tableC10.set 1 { freedC10 with status := .RUNNABLE } :=
  set_runnable_matches_pid_only.1 9 99 tableC10 1 freedC10 (by decide) rfl rfl rfl
    (by decide)

end Egos
